import Mathlib

/-!
Verification development for the `libdb` fragment store
(`src/libdb/src/rw.rs`, `src/libdb/src/fragment.rs`, `src/libdb/src/store.rs`).

The Rust sources are shallowly embedded: machine integers (`u64`, `usize`)
become `Nat` (with explicit two's-complement conversion where an `as i64`
cast matters), the backing `Cursor<Vec<u8>>` stream becomes a byte function
together with a length and a position, `BTreeMap<u64, Vec<Pointer>>` becomes
a key-sorted association list, and fallible or panicking paths become
`Option`.
-/

set_option maxRecDepth 100000

namespace LibDb

abbrev Pointer := Nat
abbrev FragmentID := Nat

/-- Constant `PAGE_SIZE` from `rw.rs`. -/
def PAGE_SIZE : Nat := 4096

/-- Largest value of a Rust `i64`. -/
def i64Max : Int := 2 ^ 63 - 1

/-- Smallest value of a Rust `i64`. -/
def i64Min : Int := -(2 ^ 63)

/-- Rust `u64::next_multiple_of` (the divisor is always `PAGE_SIZE` here,
so the division is never by zero and the addition cannot overflow for the
magnitudes involved). -/
def nextMultipleOf (x m : Nat) : Nat := ((x + m - 1) / m) * m

/-- Rust `i64::try_from(x : u64)`: succeeds exactly when the value fits. -/
def i64TryFromU64 (x : Nat) : Option Int :=
  if (x : Int) ≤ i64Max then some (x : Int) else none

/-- Rust `x as i64` for a `u64` value: two's-complement reinterpretation. -/
def u64AsI64 (x : Nat) : Int :=
  if x % 2 ^ 64 < 2 ^ 63 then ((x % 2 ^ 64 : Nat) : Int)
  else ((x % 2 ^ 64 : Nat) : Int) - 2 ^ 64

/-- Rust `i64::checked_add` (both operands are valid `i64` values at every
call site; the sum overflows exactly when it leaves the `i64` range). -/
def checkedAddI64 (a b : Int) : Option Int :=
  if i64Min ≤ a + b ∧ a + b ≤ i64Max then some (a + b) else none

/-- Fuelled integer square root (floor), by the divide-by-four recurrence;
the fuel only needs to cover the logarithmic recursion depth. -/
def isqrtFuel : Nat → Nat → Nat
  | 0, _ => 0
  | fuel + 1, x =>
    if x = 0 then 0
    else
      let s := 2 * isqrtFuel fuel (x / 4)
      if (s + 1) * (s + 1) ≤ x then s + 1 else s

/-- Floor integer square root. -/
def isqrt (x : Nat) : Nat := isqrtFuel x x

/-- Ceiling square root, modelling `(x as f64).sqrt().ceil()` from
`mk_fragment_table_part`; exact for the small page-multiple inputs that
arise there. -/
def ceilSqrt (x : Nat) : Nat :=
  if isqrt x * isqrt x = x then isqrt x else isqrt x + 1

/-- Little-endian encoding of a `u64`, eight bytes. -/
def u64le (n : Nat) : List Nat :=
  (List.range 8).map fun i => n / 256 ^ i % 256

/-- Little-endian encoding of a `u32`, four bytes. -/
def u32le (n : Nat) : List Nat :=
  (List.range 4).map fun i => n / 256 ^ i % 256

/-! ## Backing stream

The repository's tests drive the store over `Cursor<Vec<u8>>`; that is the
backing modelled here: a byte image (`data`, total `len`), plus the stream
position.  Writing past `len` grows the stream; the unwritten gap reads as
whatever `data` already held (zero for the zero-initialised backings used
below, matching the zero fill `Cursor<Vec<u8>>` performs). -/

structure Backing where
  data : Nat → Nat
  len : Nat
  pos : Nat

/-- Fresh zero-filled backing of `n` bytes with the position at zero. -/
def zeroBacking (n : Nat) : Backing := ⟨fun _ => 0, n, 0⟩

/-- Rust `Seek::seek(SeekFrom::Start(p))` on a cursor-backed stream. -/
def Backing.seekTo (b : Backing) (p : Nat) : Backing := { b with pos := p }

/-- Rust `Write::write_all` on `Cursor<Vec<u8>>`: overwrites at the current
position, growing the vector as needed, and advances the position. -/
def Backing.writeAll (b : Backing) (bytes : List Nat) : Backing :=
  { data := fun i =>
      if b.pos ≤ i ∧ i < b.pos + bytes.length then bytes.getD (i - b.pos) 0
      else b.data i,
    len := max b.len (b.pos + bytes.length),
    pos := b.pos + bytes.length }

/-- Number of bytes a single `Read::read` into a buffer of `n` bytes
returns on `Cursor<Vec<u8>>`: everything up to end of data. -/
def Backing.readCount (b : Backing) (n : Nat) : Nat := min n (b.len - b.pos)

/-- Byte extraction helper for stating facts about a persisted image. -/
def Backing.bytesAt (b : Backing) (p n : Nat) : List Nat :=
  (List.range n).map fun i => b.data (p + i)

/-! ## Data model (`rw.rs`) -/

/-- Struct `FragmentDescriptor` from `rw.rs`. -/
structure FragmentDescriptor where
  id : FragmentID
  sequence : Nat
  offset : Nat
  length : Nat
deriving DecidableEq

/-- Struct `FragmentTablePart` from `rw.rs`.  The `cap` field records the
`Vec` capacity, which the source observes through `len() < cap()` and
serialises verbatim. -/
structure FragmentTablePart where
  continuation : Pointer
  fragments : List FragmentDescriptor
  cap : Nat
deriving DecidableEq

/-- Struct `RWFragmentStoreIndex` from `rw.rs`.  The `BTreeMap<u64,
Vec<Pointer>>` is a key-sorted association list; `end` is spelt `end_`. -/
structure RWFragmentStoreIndex where
  version : Nat
  root_fragment : FragmentID
  free_space : List (Nat × List Pointer)
  fragment_table_offset : Pointer
  fragment_table_parts : List FragmentTablePart
  end_ : Pointer
deriving DecidableEq

/-- Iterator `RWFragmentStoreIndex::fragment_table`: all descriptors across
all parts, in order. -/
def fragmentTable (idx : RWFragmentStoreIndex) : List FragmentDescriptor :=
  idx.fragment_table_parts.foldr (fun p acc => p.fragments ++ acc) []

/-! ## Free-space map operations

`BTreeMap::entry(k).or_insert_with(Vec::new).push(p)` and
`range_mut(need..).next().and_then(|(_, v)| v.pop())` over the sorted
association list. -/

/-- Append pointer `p` to the bucket of key `k`, creating the bucket in key
order if absent. -/
def fsInsert : List (Nat × List Pointer) → Nat → Pointer → List (Nat × List Pointer)
  | [], k, p => [(k, [p])]
  | (k', ps) :: rest, k, p =>
    if k < k' then (k, [p]) :: (k', ps) :: rest
    else if k = k' then (k', ps ++ [p]) :: rest
    else (k', ps) :: fsInsert rest k p

/-- Pop (`Vec::pop`, i.e. remove the last pointer) from the first bucket
whose key is at least `need`; buckets after the first qualifying one are
never consulted, mirroring `range_mut(need..).next()`. -/
def fsPopFirstGE : List (Nat × List Pointer) → Nat → Option Pointer × List (Nat × List Pointer)
  | [], _ => (none, [])
  | (k, ps) :: rest, need =>
    if need ≤ k then
      match ps.getLast? with
      | some p => (some p, (k, ps.dropLast) :: rest)
      | none => (none, (k, ps) :: rest)
    else
      let r := fsPopFirstGE rest need
      (r.1, (k, ps) :: r.2)

/-! ## Allocator (`RWFragmentStoreIndex::allocate_fragment`) -/

/-- Method `allocate_fragment` from `rw.rs`: round the request up to a page,
try to pop a pointer from the first free-space bucket of at least that key,
fall back to `end`, round the pointer up to a page, and raise `end` to
cover the new extent.  The source's `Result` is always `Ok`. -/
def allocate_fragment (idx : RWFragmentStoreIndex) (min_size : Nat) :
    RWFragmentStoreIndex × Pointer × Nat :=
  let size := nextMultipleOf min_size PAGE_SIZE
  let popped := fsPopFirstGE idx.free_space size
  let ptr := nextMultipleOf (popped.1.getD idx.end_) PAGE_SIZE
  ({ idx with free_space := popped.2, end_ := max idx.end_ (ptr + size) }, ptr, size)

/-! ## Fragment-table growth (`mk_fragment_table_part`,
`push_fragment_descriptor`) -/

/-- Apply `f` to the last element of the list (`last_mut`). -/
def updateLastPart (f : FragmentTablePart → FragmentTablePart) :
    List FragmentTablePart → List FragmentTablePart
  | [] => []
  | [p] => [f p]
  | p :: q :: rest => p :: updateLastPart f (q :: rest)

/-- Capacity after `Vec::push` on a vector of 32-byte elements: unchanged
while there is room, otherwise grown to `max(4, 2 * cap)` per Rust's
`RawVec` policy. -/
def vecPushCap (len cap : Nat) : Nat :=
  if len < cap then cap else if cap = 0 then 4 else 2 * cap

/-- A `Vec::push` of one descriptor onto a part. -/
def partPush (p : FragmentTablePart) (d : FragmentDescriptor) : FragmentTablePart :=
  { p with fragments := p.fragments ++ [d], cap := vecPushCap p.fragments.length p.cap }

/-- Method `mk_fragment_table_part` from `rw.rs`: size the new chunk by the
squared ceiling square root of the page-rounded consumed descriptor bytes,
allocate it, link it from the previous last chunk (or the header pointer if
there is none), and append an empty chunk. -/
def mk_fragment_table_part (idx : RWFragmentStoreIndex) : RWFragmentStoreIndex :=
  let consumed := (fragmentTable idx).length * 32
  let c := ceilSqrt (nextMultipleOf consumed PAGE_SIZE)
  let toAllocate := c * c
  let alloc := allocate_fragment idx toAllocate
  let idx1 := alloc.1
  let ptr := alloc.2.1
  let idx2 :=
    if idx1.fragment_table_parts.isEmpty then
      { idx1 with fragment_table_offset := ptr }
    else
      { idx1 with fragment_table_parts :=
          updateLastPart (fun p => { p with continuation := ptr }) idx1.fragment_table_parts }
  { idx2 with fragment_table_parts := idx2.fragment_table_parts ++ [⟨0, [], 0⟩] }

/-- Method `push_fragment_descriptor` from `rw.rs`: push into the last part
if it still has spare capacity, otherwise grow the table first.  The
source's `Result` is always `Ok` (the pushes themselves cannot fail). -/
def push_fragment_descriptor (idx : RWFragmentStoreIndex) (d : FragmentDescriptor) :
    RWFragmentStoreIndex :=
  match idx.fragment_table_parts.getLast? with
  | some last =>
    if last.fragments.length < last.cap then
      { idx with fragment_table_parts :=
          updateLastPart (fun p => partPush p d) idx.fragment_table_parts }
    else
      let idx' := mk_fragment_table_part idx
      { idx' with fragment_table_parts :=
          updateLastPart (fun p => partPush p d) idx'.fragment_table_parts }
  | none =>
    let idx' := mk_fragment_table_part idx
    { idx' with fragment_table_parts :=
        updateLastPart (fun p => partPush p d) idx'.fragment_table_parts }

/-! ## Open-time free-space reconstruction (`RWFragmentStoreIndex::read`) -/

/-- Insertion by ascending offset, modelling `slots.sort_by_key(|s| s.offset)`
(order among equal offsets is not exercised by the statements below). -/
def insertByOffset (d : FragmentDescriptor) :
    List FragmentDescriptor → List FragmentDescriptor
  | [] => [d]
  | e :: rest =>
    if d.offset ≤ e.offset then d :: e :: rest else e :: insertByOffset d rest

/-- Sort descriptors ascending by offset. -/
def sortByOffset (l : List FragmentDescriptor) : List FragmentDescriptor :=
  l.foldr insertByOffset []

/-- One iteration of the `slots.windows(2)` loop in
`RWFragmentStoreIndex::read`, restricted to its `free_space` effect: with
`offset = (a.offset + a.length).next_multiple_of(PAGE_SIZE)`, when
`b.offset > offset` insert `offset` under key
`(b.offset - offset).next_multiple_of(PAGE_SIZE) - PAGE_SIZE` provided that
key is positive.  (The same loop also raises `end`, which the free-space
claims do not touch.) -/
def gapStep (fs : List (Nat × List Pointer)) (a b : FragmentDescriptor) :
    List (Nat × List Pointer) :=
  let offset := nextMultipleOf (a.offset + a.length) PAGE_SIZE
  if offset < b.offset then
    let size := nextMultipleOf (b.offset - offset) PAGE_SIZE - PAGE_SIZE
    if 0 < size then fsInsert fs size offset else fs
  else fs

/-- Fold a function over adjacent pairs of a list, as `windows(2)` does. -/
def foldPairs {β : Type} (f : β → FragmentDescriptor → FragmentDescriptor → β) :
    β → List FragmentDescriptor → β
  | acc, [] => acc
  | acc, [_] => acc
  | acc, a :: b :: rest => foldPairs f (f acc a b) (b :: rest)

/-- The free-space map reconstructed from a descriptor set at open time. -/
def buildFreeSpace (descs : List FragmentDescriptor) : List (Nat × List Pointer) :=
  foldPairs gapStep [] (sortByOffset descs)

/-! ## Store, blank initialisation and persistence -/

/-- Struct `RWFragmentStore` from `rw.rs`: backing plus in-memory index. -/
structure RWFragmentStore where
  backing : Backing
  header : RWFragmentStoreIndex

/-- ASCII bytes of the header magic "RWFS". -/
def RWFS_MAGIC : List Nat := [82, 87, 70, 83]

/-- Serialised bytes of one descriptor
(`<FragmentDescriptor as Storage>::write`). -/
def FragmentDescriptor.writeBytes (d : FragmentDescriptor) : List Nat :=
  u64le d.id ++ u64le d.sequence ++ u64le d.offset ++ u64le d.length

/-- Serialised bytes of one table part
(`<FragmentTablePart as Storage>::write`): continuation, capacity, length,
then the descriptors. -/
def FragmentTablePart.writeBytes (p : FragmentTablePart) : List Nat :=
  u64le p.continuation ++ u64le p.cap ++ u64le p.fragments.length ++
    p.fragments.foldr (fun d acc => d.writeBytes ++ acc) []

/-- Method `<RWFragmentStoreIndex as Storage>::write`: seek to zero, write
the 24-byte header, seek to the first-chunk offset, then write each part
and seek to its continuation pointer. -/
def indexWrite (idx : RWFragmentStoreIndex) (b : Backing) : Backing :=
  let b := (b.seekTo 0).writeAll
    (RWFS_MAGIC ++ u32le idx.version ++ u64le idx.root_fragment ++
      u64le idx.fragment_table_offset)
  let b := b.seekTo idx.fragment_table_offset
  idx.fragment_table_parts.foldl
    (fun b p => (b.writeAll p.writeBytes).seekTo p.continuation) b

/-- The in-memory index `RWFragmentStore::blank` constructs: version 0,
root fragment 0, first chunk at one page holding the synthetic descriptor
(0, 0, two pages, one page), `end` at three pages.  The chunk's `Vec`
capacity is the one element `vec![...]` allocates. -/
def blankIndex : RWFragmentStoreIndex :=
  { version := 0
    root_fragment := 0
    free_space := []
    fragment_table_offset := PAGE_SIZE
    fragment_table_parts := [⟨0, [⟨0, 0, 2 * PAGE_SIZE, PAGE_SIZE⟩], 1⟩]
    end_ := 3 * PAGE_SIZE }

/-- Method `RWFragmentStore::blank`: build `blankIndex` and persist it via
`save`, which calls `indexWrite`. -/
def blank (b : Backing) : RWFragmentStore :=
  { backing := indexWrite blankIndex b, header := blankIndex }

/-! ## Identifier minting (`next_fragment_id`, `next_frag_and_seq`) -/

/-- Rust `Iterator::max_by` keyed by `f`: the last maximal element wins. -/
def maxByLast (f : FragmentDescriptor → Nat) (l : List FragmentDescriptor) :
    Option FragmentDescriptor :=
  l.foldl
    (fun acc d =>
      match acc with
      | none => some d
      | some m => if f m ≤ f d then some d else some m)
    none

/-- Method `RWFragmentStore::next_fragment_id`: the maximum id present in
the table, with default 1 when the table is empty. -/
def next_fragment_id (idx : RWFragmentStoreIndex) : FragmentID :=
  ((maxByLast (fun d => d.id) (fragmentTable idx)).map (fun d => d.id)).getD 1

/-- Method `RWFragmentStore::next_frag_and_seq`: resolve the fragment id
(explicit or minted) and pair it with one more than the maximum sequence
recorded for that id (default 0). -/
def next_frag_and_seq (idx : RWFragmentStoreIndex) (frag? : Option FragmentID) :
    FragmentID × Nat :=
  let frag := frag?.getD (next_fragment_id idx)
  let seq :=
    ((maxByLast (fun d => d.sequence)
        ((fragmentTable idx).filter (fun d => d.id == frag))).map
      (fun d => d.sequence)).getD 0
  (frag, seq + 1)

/-! ## Fragment handles (`fragment.rs`)

Handles borrow the store exclusively in Rust; here the store state is
threaded explicitly alongside the handle state. -/

/-- Struct `SizedFragment` from `fragment.rs`: cursor and extent data (the
`index` borrow is threaded separately). -/
structure SizedFragment where
  fragment : FragmentID
  sequence : Nat
  cursor : Nat
  ptr : Pointer
  size : Nat
  max_size : Option Nat
deriving DecidableEq

/-- Enum `SeekFrom` (`std::io`); `End` is spelt `fromEnd`. -/
inductive SeekFrom where
  | start : Nat → SeekFrom
  | fromEnd : Int → SeekFrom
  | current : Int → SeekFrom
deriving DecidableEq

/-- Method `<SizedFragment as Read>::read` for a buffer of `bufLen` bytes:
save the backing position, seek to `ptr + cursor`, perform one backing
read, restore the backing position.  The handle cursor is left untouched
and the amount read is limited only by the backing, exactly as in the
source. -/
def SizedFragment.read (f : SizedFragment) (b : Backing) (bufLen : Nat) :
    SizedFragment × Backing × Nat :=
  let start := b.pos
  let b1 := b.seekTo (f.ptr + f.cursor)
  let n := b1.readCount bufLen
  let b2 := { b1 with pos := b1.pos + n }
  (f, b2.seekTo start, n)

/-- Method `<SizedFragment as Write>::write`: save the backing position,
seek to `ptr + cursor`, write the whole buffer, restore the position.  As
in the source, no bound is enforced and the handle cursor does not move. -/
def SizedFragment.write (f : SizedFragment) (b : Backing) (buf : List Nat) :
    SizedFragment × Backing × Nat :=
  let start := b.pos
  let b1 := (b.seekTo (f.ptr + f.cursor)).writeAll buf
  (f, b1.seekTo start, buf.length)

/-- Method `<SizedFragment as Seek>::seek`: bound is
`max_size.unwrap_or(size)`; the new relative position is computed in
signed 64-bit arithmetic and committed only when inside `[0, bound]`.
`none` models the `InvalidInput` error; the backing stream plays no part. -/
def SizedFragment.seek (f : SizedFragment) (pos : SeekFrom) :
    Option (SizedFragment × Nat) :=
  let bound := f.max_size.getD f.size
  let newRel? : Option Int :=
    match pos with
    | .start off => i64TryFromU64 off
    | .fromEnd offset => (i64TryFromU64 bound).bind fun b => checkedAddI64 b offset
    | .current offset => checkedAddI64 (u64AsI64 f.cursor) offset
  match newRel? with
  | none => none
  | some r =>
    if r < 0 ∨ (bound : Int) < r then none
    else some ({ f with cursor := r.toNat }, r.toNat)

/-- Enum `InlineBuffer` from `fragment.rs`: a `Cursor<Vec<u8>>` (data and
position) or the write-through pointer and running length. -/
inductive InlineBuffer where
  | buffered : List Nat → Nat → InlineBuffer
  | writeThrough : Pointer → Nat → InlineBuffer
deriving DecidableEq

/-- Struct `DynamicFragment` from `fragment.rs` (store borrow threaded
separately). -/
structure DynamicFragment where
  buffer_threshold : Nat
  fragment : FragmentID
  sequence : Nat
  buffer : InlineBuffer
deriving DecidableEq

/-- Rust `Cursor<Vec<u8>>::write`: overwrite from the cursor position,
extending the vector as needed (zero padding any gap), and advance. -/
def cursorVecWrite (data : List Nat) (pos : Nat) (buf : List Nat) :
    List Nat × Nat :=
  let padded := data ++ List.replicate (pos - data.length) 0
  ((padded.take pos) ++ buf ++ (padded.drop (pos + buf.length)), pos + buf.length)

/-- Method `<DynamicFragment as Write>::write`: while buffered, if the
buffer vector's length plus the incoming bytes exceeds the threshold, the
buffered vector is flushed to the backing at its current position and the
state switches to write-through with pointer `end.next_multiple_of(PAGE_SIZE)`
and running length `vector length + incoming`; then the (possibly updated)
state handles the incoming bytes: buffered states append to the in-memory
cursor, write-through states write to the backing at its current position
without touching the recorded running length. -/
def DynamicFragment.write (store : RWFragmentStore) (d : DynamicFragment)
    (buf : List Nat) : RWFragmentStore × DynamicFragment × Nat :=
  let promoted :=
    match d.buffer with
    | .buffered data _pos =>
      if d.buffer_threshold < data.length + buf.length then
        let wt := InlineBuffer.writeThrough
          (nextMultipleOf store.header.end_ PAGE_SIZE) (data.length + buf.length)
        ({ store with backing := store.backing.writeAll data },
         { d with buffer := wt })
      else (store, d)
    | .writeThrough _ _ => (store, d)
  let store := promoted.1
  let d := promoted.2
  match d.buffer with
  | .buffered data pos =>
    let w := cursorVecWrite data pos buf
    (store, { d with buffer := .buffered w.1 w.2 }, buf.length)
  | .writeThrough _ _ =>
    ({ store with backing := store.backing.writeAll buf }, d, buf.length)

/-- Method `<DynamicFragment as Drop>::drop`: a still-buffered handle
allocates an extent sized to its vector, flushes the vector there and
records a descriptor of the granted size; a write-through handle records a
descriptor from its captured pointer and running length.  Neither arm
touches `end` beyond what `allocate_fragment` does. -/
def DynamicFragment.drop (store : RWFragmentStore) (d : DynamicFragment) :
    RWFragmentStore :=
  match d.buffer with
  | .buffered data _pos =>
    let alloc := allocate_fragment store.header data.length
    let b := (store.backing.seekTo alloc.2.1).writeAll data
    let desc : FragmentDescriptor := ⟨d.fragment, d.sequence, alloc.2.1, alloc.2.2⟩
    { backing := b, header := push_fragment_descriptor alloc.1 desc }
  | .writeThrough ptr size =>
    let desc : FragmentDescriptor := ⟨d.fragment, d.sequence, ptr, size⟩
    { store with header := push_fragment_descriptor store.header desc }

/-- Enum `FragmentType` from `fragment.rs` (a read-only handle wraps a
sized one, as `ReadonlyFragment` does). -/
inductive FragmentType where
  | readOnly : SizedFragment → FragmentType
  | sized : SizedFragment → FragmentType
  | dynamic : DynamicFragment → FragmentType
deriving DecidableEq

/-- Enum `SizeHint` from `fragment.rs`. -/
inductive SizeHint where
  | sized : Nat → SizeHint
  | growable : SizeHint
deriving DecidableEq

/-- Method `RWFragmentStore::new_fragment`: mint id and sequence, then
either allocate immediately (Sized, with `max_size` the page-rounded
granted size and `size` the granted size, both named `size` in the
source's shadowing) or start a dynamic handle whose buffer is
`Cursor::new(vec![0; PAGE_SIZE])` — a vector that already has length
`PAGE_SIZE` — with threshold `PAGE_SIZE`. -/
def new_fragment (store : RWFragmentStore) (hint : SizeHint)
    (frag? : Option FragmentID) : RWFragmentStore × FragmentType :=
  let fs := next_frag_and_seq store.header frag?
  match hint with
  | .sized size =>
    let alloc := allocate_fragment store.header size
    ({ store with header := alloc.1 },
     .sized ⟨fs.1, fs.2, 0, alloc.2.1, alloc.2.2,
       some (nextMultipleOf alloc.2.2 PAGE_SIZE)⟩)
  | .growable =>
    (store, .dynamic ⟨PAGE_SIZE, fs.1, fs.2,
      .buffered (List.replicate PAGE_SIZE 0) 0⟩)

/-- Method `FragmentStore::open_fragment` from `store.rs`: resolve the
maximum-sequence descriptor for the id and wrap it read-only (with
`max_size = Some(0)` to disable writes); `none` models `NoFound`. -/
def open_fragment (store : RWFragmentStore) (id : FragmentID) :
    Option FragmentType :=
  match maxByLast (fun d => d.sequence)
      ((fragmentTable store.header).filter (fun d => d.id == id)) with
  | some frag =>
    some (.readOnly ⟨frag.id, frag.sequence, 0, frag.offset, frag.length, some 0⟩)
  | none => none

/-- Method `FragmentHandle::check_if_readonly_and_copy_if_necessary`: its
body is an unconditional `todo!()`, i.e. a panic; `none` models that
divergence.  (The copy-on-write logic exists only as commented-out code.) -/
def check_if_readonly_and_copy_if_necessary (_h : FragmentType)
    (_buf : List Nat) : Option (Option Nat) := none

/-- Method `<FragmentHandle as Write>::write`: the copy-on-write pre-check
runs first on every call; its panic propagates (`none`) before any byte
reaches the backing.  The per-state arms below are the source's `match`,
reachable only if the pre-check returned. -/
def handleWrite (store : RWFragmentStore) (h : FragmentType) (buf : List Nat) :
    Option (RWFragmentStore × FragmentType × Nat) :=
  match check_if_readonly_and_copy_if_necessary h buf with
  | none => none
  | some _ =>
    match h with
    | .readOnly _ => none
    | .sized f =>
      let r := SizedFragment.write f store.backing buf
      some ({ store with backing := r.2.1 }, .sized r.1, r.2.2)
    | .dynamic d =>
      let r := DynamicFragment.write store d buf
      some (r.1, .dynamic r.2.1, r.2.2)

/-- Method `FragmentHandle::done`: `drop(self)` then `Ok(())`.  Only
`DynamicFragment` implements `Drop`; read-only and sized handles are
discarded without flushing anything or touching the table. -/
def handleDone (store : RWFragmentStore) (h : FragmentType) : RWFragmentStore :=
  match h with
  | .readOnly _ => store
  | .sized _ => store
  | .dynamic d => DynamicFragment.drop store d

/-! ## Concrete scenario states shared by the theorems below -/

/-- Blank store over a fresh 16 KiB zero backing (scenario S1). -/
def store0 : RWFragmentStore := blank (zeroBacking 16384)

/-- Dynamic handle state that `new_fragment(Growable)` creates on the blank
store: threshold one page, minted id and sequence, and a buffer vector that
already holds one page of zeroes. -/
def demoDyn0 : DynamicFragment :=
  ⟨PAGE_SIZE, 0, 1, .buffered (List.replicate PAGE_SIZE 0) 0⟩

/-- Store, handle and byte count after the handle's first 3000-byte write. -/
def demoW1 : RWFragmentStore × DynamicFragment × Nat :=
  DynamicFragment.write store0 demoDyn0 (List.replicate 3000 1)

/-- Store, handle and byte count after a further 2000-byte write. -/
def demoW2 : RWFragmentStore × DynamicFragment × Nat :=
  DynamicFragment.write demoW1.1 demoW1.2.1 (List.replicate 2000 2)

/-- Store after closing the 3000-then-2000-byte dynamic handle. -/
def demoClosed : RWFragmentStore := DynamicFragment.drop demoW2.1 demoW2.2.1

/-- Store after closing the dynamic handle straight after its first write. -/
def c7AfterFirst : RWFragmentStore := handleDone demoW1.1 (.dynamic demoW1.2.1)

/-- A second growable handle opened on that store. -/
def c7Second : RWFragmentStore × FragmentType :=
  new_fragment c7AfterFirst .growable none

/-- Store after closing the second handle without writing to it. -/
def c7Final : RWFragmentStore := handleDone c7Second.1 c7Second.2

/-- Sized handle minted on the blank store with size hint 11. -/
def c1New : RWFragmentStore × FragmentType := new_fragment store0 (.sized 11) none

/-- Store after closing that sized handle. -/
def c1Closed : RWFragmentStore := handleDone c1New.1 c1New.2

/-- Sized handle used to exercise the read and write paths: extent at
12288, length 100, no cap, cursor at zero. -/
def c4Frag : SizedFragment := ⟨1, 1, 0, 12288, 100, none⟩

/-- Free-space state with a single non-empty bucket of key 8192 holding
pointer 16384 (scenario S5 shape). -/
def c5Index : RWFragmentStoreIndex :=
  { blankIndex with free_space := [(8192, [16384])], end_ := 24576 }

/-- Gap size as the claim words it: round the raw gap down to a page
multiple (modelled from the spec for comparison with the code's formula). -/
def claimedGapSize (gapStart bOffset : Nat) : Nat :=
  ((bOffset - gapStart) / PAGE_SIZE) * PAGE_SIZE

/-- Index state after closing the first dynamic handle: the full first
chunk was linked to a fresh chunk at 12288 and the write-through
descriptor was pushed there; `end` was advanced only by the table-chunk
allocation, not by the 7096-byte extent. -/
def c7MidIndex : RWFragmentStoreIndex :=
  { version := 0
    root_fragment := 0
    free_space := []
    fragment_table_offset := 4096
    fragment_table_parts :=
      [⟨12288, [⟨0, 0, 8192, 4096⟩], 1⟩, ⟨0, [⟨0, 1, 12288, 7096⟩], 4⟩]
    end_ := 16384 }

/-! ## Helper evaluations shared by several proofs -/

theorem demoW1_state : demoW1.2.1 = ⟨PAGE_SIZE, 0, 1, .writeThrough 12288 7096⟩ := by
  simp only [demoW1, DynamicFragment.write, demoDyn0, store0, blank, blankIndex,
    List.length_replicate]
  norm_num [nextMultipleOf, PAGE_SIZE]

theorem demoW1_header : demoW1.1.header = blankIndex := by
  simp only [demoW1, DynamicFragment.write, demoDyn0, store0, blank,
    List.length_replicate]
  norm_num [PAGE_SIZE]

theorem demoW2_state : demoW2.2.1 = ⟨PAGE_SIZE, 0, 1, .writeThrough 12288 7096⟩ := by
  simp only [demoW2, DynamicFragment.write, demoW1_state]

theorem demoW2_header : demoW2.1.header = blankIndex := by
  simp only [demoW2, DynamicFragment.write, demoW1_state, demoW1_header]

theorem demoClosed_header :
    demoClosed.header = push_fragment_descriptor blankIndex ⟨0, 1, 12288, 7096⟩ := by
  simp only [demoClosed, DynamicFragment.drop, demoW2_state, demoW2_header]

theorem c7AfterFirst_header : c7AfterFirst.header = c7MidIndex := by
  have h : c7AfterFirst.header = push_fragment_descriptor blankIndex ⟨0, 1, 12288, 7096⟩ := by
    simp only [c7AfterFirst, handleDone, DynamicFragment.drop, demoW1_state, demoW1_header]
  rw [h]; decide

/-! ## Theorems for the claims -/

/-- Claim C2: for every handle state (read-only, sized or dynamic) and
every input buffer, `<FragmentHandle as Write>::write` diverges before
transferring any bytes, because the copy-on-write pre-check it invokes
first is an unconditional `todo!()`; hence no write through the public
handle interface can complete. -/
theorem handle_write_always_diverges (store : RWFragmentStore)
    (h : FragmentType) (buf : List Nat) : handleWrite store h buf = none := rfl

/-- Claim C1 (code bug): the round trip claimed by the spec cannot happen.
On the blank store, `new_fragment(size_hint = 11)` mints a sized handle
over extent (12288, 4096); writing the payload through the public handle
diverges in the `todo!()` pre-check; closing the handle (`done`, a bare
drop) leaves the index untouched, so no descriptor (id, sequence, ptr,
length) is appended and the table still holds only the synthetic id-0
descriptor; `open_fragment` on the minted id then resolves the synthetic
page at 8192 rather than anything that was written. -/
theorem sized_roundtrip_fails :
    c1New.2 = .sized ⟨0, 1, 0, 12288, 4096, some 4096⟩ ∧
    handleWrite c1New.1 c1New.2
      [104, 101, 108, 108, 111, 32, 119, 111, 114, 108, 100] = none ∧
    (handleDone c1New.1 c1New.2).header = c1New.1.header ∧
    fragmentTable c1Closed.header = [⟨0, 0, 8192, 4096⟩] ∧
    open_fragment c1Closed 0 =
      some (.readOnly ⟨0, 0, 0, 8192, 4096, some 0⟩) := by
  exact ⟨by decide, rfl, rfl, by decide, by decide⟩

/-- Claim C3 (code bug): a fresh dynamic handle's buffer vector already has
length `PAGE_SIZE` (it is `vec![0; PAGE_SIZE]`), so the very first
3000-byte write satisfies `4096 + 3000 > 4096` and promotes immediately
instead of remaining buffered; the recorded running length is the vector
length plus the first incoming chunk (7096), later streamed writes never
accumulate it, and the descriptor appended on close carries length 7096,
not `round_up(3000 + 2000, 4096) = 8192` as the claim requires. -/
theorem dynamic_promotion_mismatch :
    (new_fragment store0 .growable none).2 = .dynamic demoDyn0 ∧
    demoW1.2.1.buffer = .writeThrough 12288 7096 ∧
    demoW2.2.1.buffer = .writeThrough 12288 7096 ∧
    fragmentTable demoClosed.header =
      [⟨0, 0, 8192, 4096⟩, ⟨0, 1, 12288, 7096⟩] ∧
    (7096 : Nat) ≠ nextMultipleOf (3000 + 2000) PAGE_SIZE := by
  refine ⟨rfl, by rw [demoW1_state], by rw [demoW2_state], ?_, by decide⟩
  rw [demoClosed_header]; decide

/-- Claim C4 (code bug): `<SizedFragment as Read>::read` transfers up to
the caller's buffer length limited only by the backing stream — here 108
bytes against the claimed bound `min(108, 100 - 0) = 100` — and leaves the
handle cursor untouched instead of advancing it; the write path likewise
writes all 108 bytes past the bound with no short write and no cursor
movement.  (Only the save/restore of the backing position matches the
claim.) -/
theorem sized_read_write_ignore_bound :
    (SizedFragment.read c4Frag (zeroBacking 16384) 108).2.2 = 108 ∧
    ¬ (SizedFragment.read c4Frag (zeroBacking 16384) 108).2.2 ≤
        min 108 (100 - 0) ∧
    (SizedFragment.read c4Frag (zeroBacking 16384) 108).1.cursor = 0 ∧
    (SizedFragment.write c4Frag (zeroBacking 16384)
        (List.replicate 108 7)).2.2 = 108 ∧
    (SizedFragment.write c4Frag (zeroBacking 16384)
        (List.replicate 108 7)).1.cursor = 0 := by
  exact ⟨by decide, by decide, by decide, by decide, by decide⟩

/-- Claim C7 (code bug): closing a promoted (write-through) dynamic handle
never advances `end`, so a later allocation is handed the same region
again.  After blank; a dynamic handle that writes 3000 bytes and closes
(descriptor (0, 1, 12288, 7096)); and a second dynamic handle closed
untouched (descriptor (0, 2, 16384, 4096)), the table holds two
descriptors with `A.offset < B.offset` and `A.offset + A.length = 19384 >
16384 = B.offset`: extents overlap, refuting the claimed invariant. -/
theorem descriptor_extents_overlap :
    fragmentTable c7Final.header =
      [⟨0, 0, 8192, 4096⟩, ⟨0, 1, 12288, 7096⟩, ⟨0, 2, 16384, 4096⟩] ∧
    ¬ (∀ a ∈ fragmentTable c7Final.header, ∀ b ∈ fragmentTable c7Final.header,
        a.offset < b.offset → a.offset + a.length ≤ b.offset) := by
  have h1 : c7Second.1 = c7AfterFirst := by simp only [c7Second, new_fragment]
  have hmint : next_frag_and_seq c7MidIndex none = (0, 2) := by decide
  have h2 : c7Second.2 =
      FragmentType.dynamic ⟨PAGE_SIZE, 0, 2, .buffered (List.replicate PAGE_SIZE 0) 0⟩ := by
    simp only [c7Second, new_fragment, c7AfterFirst_header, hmint]
  have halloc : allocate_fragment c7MidIndex 4096 =
      ({ c7MidIndex with end_ := 20480 }, 16384, 4096) := by decide
  have h4 : c7Final.header =
      push_fragment_descriptor { c7MidIndex with end_ := 20480 } ⟨0, 2, 16384, 4096⟩ := by
    simp only [c7Final, handleDone, h2, h1, DynamicFragment.drop, c7AfterFirst_header,
      List.length_replicate, PAGE_SIZE, halloc]
  have h5 : fragmentTable c7Final.header =
      [⟨0, 0, 8192, 4096⟩, ⟨0, 1, 12288, 7096⟩, ⟨0, 2, 16384, 4096⟩] := by
    rw [h4]; decide
  exact ⟨h5, by rw [h5]; decide⟩

/-- Claim C10: `blank` builds and persists the documented container: the
header at offset 0 carries magic "RWFS", version 0, root fragment 0 and
fragment-table offset 4096; one table chunk at 4096 stores capacity 1,
length 1 and the single synthetic descriptor (0, 0, 8192, 4096); the
in-memory watermark is `end = 12288`. -/
theorem blank_layout :
    store0.backing.bytesAt 0 4 = RWFS_MAGIC ∧
    store0.backing.bytesAt 4 4 = u32le 0 ∧
    store0.backing.bytesAt 8 8 = u64le 0 ∧
    store0.backing.bytesAt 16 8 = u64le 4096 ∧
    store0.header.fragment_table_offset = 4096 ∧
    store0.header.fragment_table_parts = [⟨0, [⟨0, 0, 8192, 4096⟩], 1⟩] ∧
    store0.backing.bytesAt 4096 8 = u64le 0 ∧
    store0.backing.bytesAt 4104 8 = u64le 1 ∧
    store0.backing.bytesAt 4112 8 = u64le 1 ∧
    store0.backing.bytesAt 4120 32 =
      FragmentDescriptor.writeBytes ⟨0, 0, 8192, 4096⟩ ∧
    store0.header.end_ = 12288 := by
  exact ⟨by decide, by decide, by decide, by decide, by decide, by decide,
    by decide, by decide, by decide, by decide, by decide⟩

/-- Free-space pop equals: find the first bucket whose key is at least the
need, then take that bucket's last pointer; an empty first qualifying
bucket blocks reuse even if later buckets hold pointers. -/
theorem fsPopFirstGE_fst (need : Nat) (fs : List (Nat × List Pointer)) :
    (fsPopFirstGE fs need).1 =
      (fs.find? fun kv => decide (need ≤ kv.1)).bind fun kv => kv.2.getLast? := by
  induction fs with
  | nil => rfl
  | cons kv rest ih =>
    obtain ⟨k, ps⟩ := kv
    by_cases h : need ≤ k
    · simp only [fsPopFirstGE, if_pos h, List.find?, decide_eq_true h]
      cases hps : ps.getLast? <;> simp [hps]
    · simp only [fsPopFirstGE, if_neg h, List.find?, decide_eq_false h]
      simpa using ih

/-- Claim C5 counterexample: with need = 4096 and the only (hence smallest)
free-space bucket of key 8192 ≥ need non-empty, the claim requires
allocate to return (pointer, 8192) — the bucket key as granted size; the
code instead returns (16384, 4096): granted_size is always the rounded
request, never the bucket key. -/
theorem allocate_grants_need_not_key :
    (allocate_fragment c5Index 4096).2 = (16384, 4096) ∧
    (allocate_fragment c5Index 4096).2.2 ≠ 8192 := by
  exact ⟨by decide, by decide⟩

/-- Claim C5 amended: `allocate(min_size)` always grants exactly
`need = round_up(min_size, page_size)`; the pointer is the page-rounded
last pointer of the first free-space bucket with key ≥ need (later buckets
are never consulted, and an empty first qualifying bucket falls through),
defaulting to the page-rounded `end`; and `end` becomes
`max(end, pointer + need)`. -/
theorem allocate_fragment_behaviour (idx : RWFragmentStoreIndex) (min_size : Nat) :
    (allocate_fragment idx min_size).2.2 = nextMultipleOf min_size PAGE_SIZE ∧
    (allocate_fragment idx min_size).2.1 =
      nextMultipleOf
        (((idx.free_space.find? fun kv =>
            decide (nextMultipleOf min_size PAGE_SIZE ≤ kv.1)).bind
          (fun kv => kv.2.getLast?)).getD idx.end_) PAGE_SIZE ∧
    (allocate_fragment idx min_size).1.end_ =
      max idx.end_
        ((allocate_fragment idx min_size).2.1 + nextMultipleOf min_size PAGE_SIZE) := by
  refine ⟨rfl, ?_, rfl⟩
  simp only [allocate_fragment, fsPopFirstGE_fst]

/-- Claim C6 counterexample: for adjacent descriptors A = (0, 0, 0, 4096)
and B = (1, 0, 8192, 4096), gap_start = 4096 and the raw gap is exactly
one page; the claimed key `round_down(8192 − 4096, 4096) = 4096` is
positive, so the claim requires an entry, but the code computes
`next_multiple_of(4096) − 4096 = 0` and the reconstructed free-space map
stays empty. -/
theorem reconstruction_misses_exact_page_gap :
    buildFreeSpace [⟨0, 0, 0, 4096⟩, ⟨1, 0, 8192, 4096⟩] = [] ∧
    nextMultipleOf (0 + 4096) PAGE_SIZE = 4096 ∧
    claimedGapSize 4096 8192 = 4096 ∧
    0 < claimedGapSize 4096 8192 := by
  exact ⟨by decide, by decide, by decide, by decide⟩

/-- Claim C6 amended: for each adjacent pair (A, B) the reconstruction
step inserts the entry with pointer gap_start and key
`round_up(B.offset − gap_start, page_size) − page_size` — one page less
than the claimed rounded-down gap when the raw gap is an exact page
multiple — and it does so exactly when `B.offset − gap_start` exceeds one
page. -/
theorem gapStep_characterisation (fs : List (Nat × List Pointer))
    (a b : FragmentDescriptor) :
    gapStep fs a b =
      if PAGE_SIZE < b.offset - nextMultipleOf (a.offset + a.length) PAGE_SIZE then
        fsInsert fs
          (nextMultipleOf (b.offset - nextMultipleOf (a.offset + a.length) PAGE_SIZE)
              PAGE_SIZE - PAGE_SIZE)
          (nextMultipleOf (a.offset + a.length) PAGE_SIZE)
      else fs := by
  have key : ∀ x : Nat,
      (0 < nextMultipleOf x PAGE_SIZE - PAGE_SIZE) ↔ PAGE_SIZE < x := by
    intro x
    simp only [nextMultipleOf, PAGE_SIZE]
    omega
  simp only [gapStep]
  by_cases h1 : nextMultipleOf (a.offset + a.length) PAGE_SIZE < b.offset
  · simp only [if_pos h1]
    by_cases h2 : PAGE_SIZE < b.offset - nextMultipleOf (a.offset + a.length) PAGE_SIZE
    · rw [if_pos ((key _).mpr h2), if_pos h2]
    · rw [if_neg (fun hc => h2 ((key _).mp hc)), if_neg h2]
  · have h2 : ¬ PAGE_SIZE < b.offset - nextMultipleOf (a.offset + a.length) PAGE_SIZE := by
      simp only [PAGE_SIZE] at *
      omega
    rw [if_neg h1, if_neg h2]

/-- Claim C8: for a sized handle with `bound = max_size.unwrap_or(size)`
within the i64 range and a cursor within the bound, a seek from Start,
End or Current succeeds exactly when the signed 64-bit target lies in
`[0, bound]` — a conversion or addition overflow always lands in the
rejected region because the bound itself fits in an i64 — and on success
only the cursor changes, to the target, which is also returned.  The
source's seek never touches the backing stream, which the embedding makes
structural.  In particular a handle of length L with no max_size rejects
every Start target above L and accepts every target in `[0, L]`. -/
theorem sized_seek_characterisation (id sq cur ptr L t : Nat) (o : Int)
    (ms : Option Nat)
    (hb : ((ms.getD L : Nat) : Int) ≤ i64Max) (hc : cur ≤ ms.getD L) :
    (SizedFragment.seek ⟨id, sq, cur, ptr, L, ms⟩ (.start t) =
      if t ≤ ms.getD L then some (⟨id, sq, t, ptr, L, ms⟩, t) else none) ∧
    (SizedFragment.seek ⟨id, sq, cur, ptr, L, ms⟩ (.fromEnd o) =
      if 0 ≤ ((ms.getD L : Nat) : Int) + o ∧
          ((ms.getD L : Nat) : Int) + o ≤ ((ms.getD L : Nat) : Int) then
        some (⟨id, sq, (((ms.getD L : Nat) : Int) + o).toNat, ptr, L, ms⟩,
          (((ms.getD L : Nat) : Int) + o).toNat)
      else none) ∧
    (SizedFragment.seek ⟨id, sq, cur, ptr, L, ms⟩ (.current o) =
      if 0 ≤ (cur : Int) + o ∧ (cur : Int) + o ≤ ((ms.getD L : Nat) : Int) then
        some (⟨id, sq, ((cur : Int) + o).toNat, ptr, L, ms⟩,
          ((cur : Int) + o).toNat)
      else none) := by
  obtain ⟨B, hmsB⟩ : ∃ B, ms.getD L = B := ⟨_, rfl⟩
  rw [hmsB] at hb hc ⊢
  refine ⟨?_, ?_, ?_⟩
  · simp only [SizedFragment.seek, i64TryFromU64, hmsB]
    by_cases h1 : ((t : Int)) ≤ i64Max
    · simp only [if_pos h1]
      by_cases h2 : t ≤ B
      · have hne : ¬((t : Int) < 0 ∨ (B : Int) < (t : Int)) := by
          push_neg
          exact ⟨Int.natCast_nonneg t, by exact_mod_cast h2⟩
        simp only [if_neg hne, if_pos h2, Int.toNat_natCast]
      · have hor : ((t : Int) < 0 ∨ (B : Int) < (t : Int)) := by
          right; exact_mod_cast Nat.lt_of_not_le h2
        simp only [if_pos hor, if_neg h2]
    · have h2 : ¬ t ≤ B := by
        intro hle
        exact h1 (le_trans (by exact_mod_cast hle) hb)
      simp only [if_neg h1, if_neg h2]
  · simp only [SizedFragment.seek, i64TryFromU64, checkedAddI64, hmsB]
    rw [if_pos hb]
    simp only [Option.some_bind]
    by_cases h1 : i64Min ≤ (B : Int) + o ∧ (B : Int) + o ≤ i64Max
    · simp only [if_pos h1]
      by_cases h2 : 0 ≤ (B : Int) + o ∧ (B : Int) + o ≤ (B : Int)
      · have hne : ¬((B : Int) + o < 0 ∨ (B : Int) < (B : Int) + o) := by
          push_neg; exact ⟨h2.1, h2.2⟩
        simp only [if_neg hne, if_pos h2]
      · have hor : ((B : Int) + o < 0 ∨ (B : Int) < (B : Int) + o) := by
          rcases not_and_or.mp h2 with h | h
          · left; omega
          · right; omega
        simp only [if_pos hor, if_neg h2]
    · have h2 : ¬(0 ≤ (B : Int) + o ∧ (B : Int) + o ≤ (B : Int)) := by
        intro hx
        apply h1
        constructor
        · have h0 : i64Min ≤ (0 : Int) := by norm_num [i64Min]
          exact le_trans h0 hx.1
        · exact le_trans hx.2 hb
      simp only [if_neg h1, if_neg h2]
  · have hcB : (cur : Int) ≤ i64Max := le_trans (by exact_mod_cast hc) hb
    have hcast : u64AsI64 cur = (cur : Int) := by
      have h1 : cur % 2 ^ 64 = cur := by
        apply Nat.mod_eq_of_lt
        simp only [i64Max] at hcB
        omega
      have h2 : cur < 2 ^ 63 := by
        simp only [i64Max] at hcB
        omega
      simp only [u64AsI64, h1, if_pos h2]
    simp only [SizedFragment.seek, checkedAddI64, hmsB, hcast]
    by_cases h1 : i64Min ≤ (cur : Int) + o ∧ (cur : Int) + o ≤ i64Max
    · simp only [if_pos h1]
      by_cases h2 : 0 ≤ (cur : Int) + o ∧ (cur : Int) + o ≤ (B : Int)
      · have hne : ¬((cur : Int) + o < 0 ∨ (B : Int) < (cur : Int) + o) := by
          push_neg; exact ⟨h2.1, h2.2⟩
        simp only [if_neg hne, if_pos h2]
      · have hor : ((cur : Int) + o < 0 ∨ (B : Int) < (cur : Int) + o) := by
          rcases not_and_or.mp h2 with h | h
          · left; omega
          · right; omega
        simp only [if_pos hor, if_neg h2]
    · have h2 : ¬(0 ≤ (cur : Int) + o ∧ (cur : Int) + o ≤ (B : Int)) := by
        intro hx
        apply h1
        constructor
        · have h0 : i64Min ≤ (0 : Int) := by norm_num [i64Min]
          exact le_trans h0 hx.1
        · exact le_trans hx.2 hb
      simp only [if_neg h1, if_neg h2]

/-- Witness for claim C8 at the test's values (ptr 256, length 100, no
max_size): seeks to 50 from Start and to 100 − 50 from End succeed with
relative position 50; a −50 seek from Current at cursor 0 is rejected. -/
theorem sized_seek_characterisation_witness :
    ((100 : Int) ≤ i64Max ∧ (0 : Nat) ≤ 100) ∧
    (SizedFragment.seek ⟨1, 1, 0, 256, 100, none⟩ (.start 50) =
        some (⟨1, 1, 50, 256, 100, none⟩, 50) ∧
      SizedFragment.seek ⟨1, 1, 0, 256, 100, none⟩ (.fromEnd (-50)) =
        some (⟨1, 1, 50, 256, 100, none⟩, 50) ∧
      SizedFragment.seek ⟨1, 1, 0, 256, 100, none⟩ (.current (-50)) = none) :=
  ⟨⟨by decide, by decide⟩,
    sized_seek_characterisation 1 1 0 256 100 50 (-50) none (by decide) (by decide)⟩

/-- Claim C9 counterexample: on the blank store (table = the synthetic
descriptor with id 0), the first `new_fragment` without an explicit id
mints fragment id 0, not 1: `next_fragment_id` returns the maximum id
present — 0 — because the default 1 applies only to an empty table. -/
theorem blank_first_mint_not_one :
    (next_frag_and_seq store0.header none).1 ≠ 1 ∧
    (next_frag_and_seq store0.header none).1 = 0 := by
  exact ⟨by decide, by decide⟩

/-- Claim C9 amended: immediately after blank initialisation the first
`new_fragment` without an explicit id mints fragment id 0 with sequence 1
(`next_id = max(id in table)`, which is 0 here; the default 1 applies only
when the table is empty, as the emptied-table variant shows). -/
theorem blank_first_mint :
    next_fragment_id store0.header = 0 ∧
    next_frag_and_seq store0.header none = (0, 1) ∧
    next_fragment_id { store0.header with fragment_table_parts := [] } = 1 := by
  exact ⟨by decide, by decide, by decide⟩

end LibDb
